import Mathlib

/-!
Verification development for the openindexcli encrypted-messaging core.

The definitions below are a shallow embedding of the TypeScript source:
`index.ts` (commands `get-messages`, `create-group`, `group-send`),
`lib/group.ts` (`nextKey`, `redistributeKeys`), `lib/local.ts`
(`saveGroup`/`loadGroup`) and `lib/helpers.ts` (`hashUsername`,
`hashGroupId`).  Byte strings (hex-encoded keys, ciphertexts, addresses)
are modelled as `String`; external cryptographic primitives and the
directory service are fields of an `Env` record, so every theorem is
parametric in them and witnesses instantiate them with concrete
executable functions.  Network effects (posting a record, sealing a
payload to a member) and store writes are recorded in an explicit
`Effect` list in the order the source performs them.
-/

namespace OpenIndex

/-- JS string truthiness for `if (!x)` guards: `undefined` and `""` are
falsy, every other string is truthy. -/
def falsy : Option String → Bool
  | none => true
  | some s => s == ""

/-- JS coercion used for template literals and computed property keys:
`obj[x]` with `x === undefined` reads property `"undefined"`, and
interpolating `undefined` yields the text `"undefined"`. -/
def jsField : Option String → String
  | some s => s
  | none => "undefined"

/-- A JS object used as a string map whose values may be `undefined`
(e.g. `memberKeys`, `signingKeys`). -/
abbrev KeyMap := List (String × Option String)

/-- Property read on a `KeyMap`: `some v` when the key is present. -/
def lookupKey : KeyMap → String → Option (Option String)
  | [], _ => none
  | (k, v) :: rest, key => if k = key then some v else lookupKey rest key

/-- The JS `delete obj[key]` operation on a `KeyMap`. -/
def eraseKey : KeyMap → String → KeyMap
  | [], _ => []
  | (k, v) :: rest, key =>
    if k = key then eraseKey rest key else (k, v) :: eraseKey rest key

/-- JS `"str".split(':')` on a single-character separator: splits at every
colon, keeping empty segments. -/
def splitColonAux (acc : List Char) : List Char → List (List Char)
  | [] => [acc.reverse]
  | ch :: rest =>
    if ch = ':' then acc.reverse :: splitColonAux [] rest
    else splitColonAux (ch :: acc) rest

/-- `msg.message.split(':')` from the group-decryption branch. -/
def jsSplitColon (s : String) : List String :=
  (splitColonAux [] s.data).map fun cs => String.mk cs

/-- Persisted per-group state (the value stored in `groups.json`).
Every field is optional because the two writers (`create-group` and the
`GROUP_SETUP` receive path) each materialise only part of the record and
`saveGroup` merges shallowly; `updatedAt` is written but never read and
is omitted. `mySigningPubKey` is read by `redistributeKeys` but no code
path ever writes it. -/
structure GroupState where
  name : Option String := none
  groupInboxId : Option String := none
  creator : Option String := none
  myChainKey : Option String := none
  mySigningKey : Option String := none
  mySigningPubKey : Option String := none
  members : Option (List String) := none
  memberKeys : Option KeyMap := none
  signingKeys : Option KeyMap := none
deriving DecidableEq

/-- The local group store: the JSON object persisted by `lib/local.ts`,
keyed by group name. -/
abbrev Store := List (String × GroupState)

/-- `loadGroup` from `lib/local.ts`: `allGroups[groupName] || null`. -/
def loadGroup : Store → String → Option GroupState
  | [], _ => none
  | (k, v) :: rest, key => if k = key then some v else loadGroup rest key

/-- Write-back of one entry of the store (the `allGroups[groupName] = ...;
writeFileSync` step of `saveGroup`). -/
def setStore : Store → String → GroupState → Store
  | [], key, v => [(key, v)]
  | (k, w) :: rest, key, v =>
    if k = key then (key, v) :: rest else (k, w) :: setStore rest key v

/-- The inner plaintext JSON of an envelope, after `JSON.parse`: a bag of
optional fields, since the source distinguishes message kinds by field
presence rather than by a closed tagged union. -/
structure Inner where
  text : Option String := none
  senderId : Option String := none
  createdAt : Option Nat := none
  type : Option String := none
  groupId : Option String := none
  groupInboxId : Option String := none
  creator : Option String := none
  chainKey : Option String := none
  signingPubKey : Option String := none
deriving DecidableEq

/-- The rest element of
`const { text, senderId, createdAt, ...data } = JSON.parse(...)`:
every explicitly destructured property is absent from `data`. -/
def dataOf (p : Inner) : Inner :=
  { p with text := none, senderId := none, createdAt := none }

/-- One record returned by `fetch(/cli/messages/<inboxId>)`. -/
structure WireRecord where
  message : Option String := none
  signature : Option String := none
  senderId : Option String := none
  id : Option String := none
deriving DecidableEq

/-- Plaintext payloads the protocol seals into envelopes.  Optional
components mirror fields the source may pass as `undefined` (which
`JSON.stringify` then drops). -/
inductive Payload where
  | textMsg (text : String) (senderId : Option String) (createdAt : Nat)
  | groupSetup (groupId groupInboxId : String) (creator : Option String)
      (chainKey signingPubKey : String)
  | keyUpdate (groupId : String) (chainKey : Option String)
      (signingPubKey : Option String)
deriving DecidableEq

/-- Observable actions of the protocol, in program order:
a `saveGroup` attempt, a sealed (encrypt-then-sign) envelope posted to a
blinded personal inbox, a symmetric group post, or a console display of a
received message. -/
inductive Effect where
  | save (gname : String) (st : GroupState)
  | sealedSend (recipientHash recipientPub : String) (p : Payload)
  | groupPost (inbox message signature : String) (senderId : Option String)
  | display (senderId text : Option String)
deriving DecidableEq

/-- Whether an effect is a store write. -/
def isSave : Effect → Bool
  | Effect.save _ _ => true
  | _ => false

/-- How a run of the `get-messages` action ends: normal completion, the
bare `return` in the GROUP_LEAVE branch, or an uncaught per-message
exception reaching the command-level catch. -/
inductive Outcome where
  | ok
  | returned
  | error
deriving DecidableEq

/-- External collaborators: cryptographic primitives and the directory
service, exactly the operations the source calls.  `Option`-valued
fields return `none` where the library call would throw or the lookup
would fail. -/
structure Env where
  hmac : String → String → String
  sha256hex : String → String
  jsLower : String → String
  aeadEnc : String → String → String → String × String
  aeadDec : String → String → String → String → Option String
  cipherParse : String → Option String
  decryptPriv : String → String → Option String
  parseInner : String → Option Inner
  recoverAddr : String → String → Option String
  pubToAddress : String → String
  directoryPub : String → Option String
  keccak : String → String
  signKeccak : String → String → String
  pubFromPriv : String → String
  serialize : Payload → String

/-- `hashUsername` from `lib/helpers.ts`:
`sha256(name.toLowerCase())` hex digest. -/
def hashUsername (E : Env) (name : String) : String :=
  E.sha256hex (E.jsLower name)

/-- `hashGroupId` from `lib/helpers.ts`: the digest of the template
string `` `${groupName.toLowerCase()}:${creatorPubKey}` ``. -/
def hashGroupId (E : Env) (groupName creatorPubKey : String) : String :=
  E.sha256hex (E.jsLower groupName ++ ":" ++ creatorPubKey)

/-- `nextKey` from `lib/group.ts`: the symmetric ratchet step.
`messageKey = HMAC(chainKey, "msg_key")`,
`nextChainKey = HMAC(chainKey, "next_chain")`. -/
def nextKey (E : Env) (currentChainKey : String) : String × String :=
  (E.hmac currentChainKey "msg_key", E.hmac currentChainKey "next_chain")

/-- The member loop of `redistributeKeys` (`lib/group.ts`), after the group
has been loaded: skip the stored creator (`member === group.creator`),
resolve each other member's public key (a failed resolution throws and
aborts the remaining iterations), and seal a `GROUP_KEY_UPDATE` notice
carrying `group.myChainKey` and `group.mySigningPubKey` to the member's
blinded personal inbox.  A `none` loaded group throws at the first
`group.creator` access.  Returns the effects performed and whether the
loop ran to completion. -/
def redistGo (E : Env) (g : Option GroupState) (groupId : String) :
    List String → List Effect × Bool
  | [] => ([], true)
  | member :: rest =>
    match g with
    | none => ([], false)
    | some grp =>
      if some member = grp.creator then redistGo E g groupId rest
      else
        match E.directoryPub member with
        | none => ([], false)
        | some pub =>
          let r := redistGo E g groupId rest
          (Effect.sealedSend (hashUsername E member) pub
            (Payload.keyUpdate groupId grp.myChainKey grp.mySigningPubKey) :: r.1,
           r.2)

/-- `redistributeKeys` from `lib/group.ts`: re-loads the group from the
store, then distributes the key-update notice over the passed member
list.  A `none` member list (`for ... of undefined`) throws before any
iteration. -/
def redistributeKeys (E : Env) (store : Store) (groupId : String)
    (members : Option (List String)) : List Effect × Bool :=
  match members with
  | none => ([], false)
  | some ms => redistGo E (loadGroup store groupId) groupId ms

/-- One message of the group (symmetric AES-256-GCM) branch of
`get-messages`: split the wire triplet, look up
`group.memberKeys?.[msg.senderId]`, derive the message key with the same
ratchet logic, decrypt and JSON-parse, then display.  Every failure is a
silent skip (`continue` / the surrounding try-catch); the branch performs
no store write.  Returns the display effect, if any. -/
def groupStepDisplay (E : Env) (g : GroupState) (msg : WireRecord) :
    Option (Option String × Option String) :=
  if falsy msg.message then none
  else
    let parts := jsSplitColon (jsField msg.message)
    let ivHex := parts[0]?
    let authTagHex := parts[1]?
    let ciphertext := parts[2]?
    if falsy ivHex || falsy authTagHex || falsy ciphertext then none
    else
      match g.memberKeys with
      | none => none
      | some mk =>
        match lookupKey mk (jsField msg.senderId) with
        | none => none
        | some senderKey =>
          if falsy senderKey then none
          else
            let messageKey := (nextKey E (jsField senderKey)).1
            match E.aeadDec messageKey (jsField ivHex) (jsField authTagHex)
                (jsField ciphertext) with
            | none => none
            | some decrypted =>
              match E.parseInner decrypted with
              | none => none
              | some inner => some (inner.senderId, inner.text)

/-- The only observable action of the group receive branch is the
display of `groupStepDisplay`'s fields. -/
def groupStep (E : Env) (g : GroupState) (msg : WireRecord) : Option Effect :=
  (groupStepDisplay E g msg).map fun p => Effect.display p.1 p.2

/-- The `for` loop of `get-messages` in group mode: each message is
handled independently and the loop never terminates early. -/
def groupLoop (E : Env) (g : GroupState) : List WireRecord → List Effect
  | [] => []
  | msg :: rest =>
    match groupStep E g msg with
    | none => groupLoop E g rest
    | some e => e :: groupLoop E g rest

/-- How one iteration of the 1:1 message loop ends: `next` continues with
the remaining messages, `halt` is the bare `return` statement, `err` is
an exception escaping to the command-level catch. -/
inductive StepRes where
  | next (es : List Effect) (store : Store) (n : Nat)
  | halt (es : List Effect) (store : Store)
  | err (es : List Effect) (store : Store)
deriving DecidableEq

/-- The `GROUP_LEAVE` branch of `get-messages` (reached only on a
signature-address mismatch).  `data` is the rest-spread of the decrypted
payload, so `data.senderId` is always absent and `jsField` turns it into
the literal key `"undefined"`: the filter and the two deletes remove no
real member.  A missing `memberKeys` or `signingKeys` object makes the
`delete` throw before anything is persisted; otherwise the state with a
fresh random chain key is saved and only then redistributed. -/
def handleGroupLeave (E : Env) (rand : Nat → String) (store : Store) (n : Nat)
    (data : Inner) : StepRes :=
  let gid := jsField data.groupId
  match loadGroup store gid with
  | none => StepRes.halt [] store
  | some g =>
    let leaver := jsField data.senderId
    let members1 : Option (List String) :=
      match g.members with
      | none => none
      | some l => some (l.filter fun m => decide (m ≠ leaver))
    match g.memberKeys with
    | none => StepRes.err [] store
    | some mk =>
      match g.signingKeys with
      | none => StepRes.err [] store
      | some sk =>
        let fresh := rand n
        let g1 : GroupState :=
          { g with members := members1, memberKeys := some (eraseKey mk leaver),
                   signingKeys := some (eraseKey sk leaver),
                   myChainKey := some fresh }
        let store1 := setStore store gid g1
        let r := redistributeKeys E store1 gid g1.members
        if r.2 then StepRes.next (Effect.save gid g1 :: r.1) store1 (n + 1)
        else StepRes.err (Effect.save gid g1 :: r.1) store1

/-- One message of the 1:1 (asymmetric) branch of `get-messages`:
parse and decrypt the envelope, check `msg.signature` presence, recover
the signer address, branch on `senderId` presence (the `GROUP_SETUP`
save), fetch the claimed sender's key, and compare addresses.  Parse,
decrypt, recovery and directory failures throw (no per-message catch on
this path). -/
def directStep (E : Env) (key : String) (rand : Nat → String) (store : Store)
    (n : Nat) (msg : WireRecord) : StepRes :=
  if falsy msg.message then StepRes.next [] store n
  else
    match E.cipherParse (jsField msg.message) with
    | none => StepRes.err [] store
    | some parsed =>
      match E.decryptPriv key parsed with
      | none => StepRes.err [] store
      | some json =>
        match E.parseInner json with
        | none => StepRes.err [] store
        | some inner =>
          let senderId := inner.senderId
          let data := dataOf inner
          if falsy msg.signature then StepRes.next [] store n
          else
            match E.recoverAddr (jsField msg.message) (jsField msg.signature) with
            | none => StepRes.err [] store
            | some recovered =>
              if falsy senderId then
                if data.type = some "GROUP_SETUP" then
                  let gid := jsField data.groupId
                  let old := (loadGroup store gid).getD {}
                  let g1 : GroupState :=
                    { old with name := data.groupId,
                               groupInboxId := data.groupInboxId,
                               creator := data.creator,
                               memberKeys :=
                                 some [(jsField data.creator, data.chainKey)],
                               signingKeys :=
                                 some [(jsField data.creator, data.signingPubKey)] }
                  StepRes.next [Effect.save gid g1] (setStore store gid g1) n
                else StepRes.next [] store n
              else
                match E.directoryPub (jsField senderId) with
                | none => StepRes.err [] store
                | some sPubKey =>
                  let expected := E.pubToAddress sPubKey
                  if E.jsLower recovered = E.jsLower expected then
                    if falsy data.type then
                      StepRes.next [Effect.display senderId inner.text] store n
                    else StepRes.next [] store n
                  else if data.type = some "GROUP_LEAVE" then
                    handleGroupLeave E rand store n data
                  else StepRes.next [] store n

/-- The `for` loop of `get-messages` in 1:1 mode: a thrown exception or
the bare `return` ends processing of the whole fetched batch. -/
def directLoop (E : Env) (key : String) (rand : Nat → String) :
    Store → Nat → List WireRecord → Store × List Effect × Outcome
  | store, _, [] => (store, [], Outcome.ok)
  | store, n, msg :: rest =>
    match directStep E key rand store n msg with
    | StepRes.next es store1 n1 =>
      let r := directLoop E key rand store1 n1 rest
      (r.1, es ++ r.2.1, r.2.2)
    | StepRes.halt es store1 => (store1, es, Outcome.returned)
    | StepRes.err es store1 => (store1, es, Outcome.error)

/-- The dispatch of `get-messages <name>`:
`const group = loadGroup(name); const inboxId = group ? group.groupInboxId
: hashUsername(name)`.  The fetch URL uses this inbox id. -/
def getMessagesInbox (E : Env) (store : Store) (name : String) : String :=
  match loadGroup store name with
  | some g => jsField g.groupInboxId
  | none => hashUsername E name

/-- The `get-messages` command: fetch the records of the dispatched inbox
and run the group loop (symmetric decryption only) when a local group
entry named `name` exists, the 1:1 loop (envelope decryption only)
otherwise.  `fetchInbox` models the relay; `rand` the entropy source for
`randomBytes(32)`. -/
def getMessages (E : Env) (store : Store) (name key : String)
    (fetchInbox : String → List WireRecord) (rand : Nat → String) :
    Store × List Effect × Outcome :=
  let msgs := fetchInbox (getMessagesInbox E store name)
  match loadGroup store name with
  | some g => (store, groupLoop E g msgs, Outcome.ok)
  | none => directLoop E key rand store 0 msgs

/-- The invitee loop of `create-group`: resolve each member's public key
and seal a `GROUP_SETUP` payload (group inbox id, chain key, group
signing public key, `creator: members[0]`) to the member's blinded
personal inbox.  A failed resolution throws, aborting the remaining
iterations and everything after the loop. -/
def createGo (E : Env) (gname inbox : String) (creator : Option String)
    (freshChain signPub : String) : List String → List Effect × Bool
  | [] => ([], true)
  | m :: rest =>
    match E.directoryPub m with
    | none => ([], false)
    | some pub =>
      let r := createGo E gname inbox creator freshChain signPub rest
      (Effect.sealedSend (hashUsername E m) pub
        (Payload.groupSetup gname inbox creator freshChain signPub) :: r.1,
       r.2)

/-- The `create-group` command: derive the group inbox id from
`(groupName, creatorPublicKey)`, distribute `GROUP_SETUP` to every
invitee, and only after the whole loop succeeds persist the group state
(`creator: members[0]`; `saveGroup`'s shallow merge keeps any
`memberKeys`/`signingKeys` already stored under the same name).  A
failure inside the loop reaches the command-level catch: nothing is
persisted and a single error is reported. -/
def createGroup (E : Env) (store : Store) (groupName : String)
    (members : List String) (key freshChain signPriv signPub : String) :
    Store × List Effect × Bool :=
  let creatorPub := E.pubFromPriv key
  let inbox := hashGroupId E groupName creatorPub
  let r := createGo E groupName inbox members.head? freshChain signPub members
  if r.2 then
    let old := (loadGroup store groupName).getD {}
    let g1 : GroupState :=
      { old with name := some groupName, groupInboxId := some inbox,
                 creator := members.head?, myChainKey := some freshChain,
                 mySigningKey := some signPriv, members := some members }
    (setStore store groupName g1, r.1 ++ [Effect.save groupName g1], true)
  else (store, r.1, false)

/-- The `group-send` command: advance the ratchet on `myChainKey`,
AEAD-encrypt the payload `{text, senderId: group.creator, createdAt}`,
sign the `iv:authTag:ciphertext` blob with the group signing key, save
the advanced chain key (`saveGroup`'s boolean result is ignored:
`saveOk = false` models its internal failure path, which writes nothing),
then post the blob to the group inbox with `senderId: group.creator`.
A missing group, `myChainKey` or `mySigningKey` throws before any
effect. -/
def groupSend (E : Env) (store : Store) (groupName message iv : String)
    (now : Nat) (saveOk : Bool) : Store × List Effect × Bool :=
  match loadGroup store groupName with
  | none => (store, [], false)
  | some g =>
    match g.myChainKey with
    | none => (store, [], false)
    | some ck =>
      let mk := nextKey E ck
      let payload := Payload.textMsg message g.creator now
      let enc := E.aeadEnc mk.1 iv (E.serialize payload)
      let encryptedBlob := iv ++ ":" ++ enc.2 ++ ":" ++ enc.1
      match g.mySigningKey with
      | none => (store, [], false)
      | some sk0 =>
        let signature := E.signKeccak sk0 (E.keccak encryptedBlob)
        let g1 := { g with myChainKey := some mk.2 }
        let store1 := if saveOk then setStore store groupName g1 else store
        (store1,
         [Effect.save groupName g1,
          Effect.groupPost (jsField g.groupInboxId) encryptedBlob signature
            g.creator],
         true)

/-- The `senderId` side-channel fields of the posted group records in an
effect trace, in order. -/
def postedSenderIds : List Effect → List (Option String)
  | [] => []
  | Effect.groupPost _ _ _ sid :: rest => sid :: postedSenderIds rest
  | _ :: rest => postedSenderIds rest

/-- Concrete directory for the scenario environment. -/
def dirPubs : String → Option String := fun u =>
  if u = "alice" then some "PUBalice"
  else if u = "bob" then some "PUBbob"
  else if u = "carol" then some "PUBcarol"
  else if u = "x" then some "PUBx"
  else none

/-- Concrete JSON parser for the scenario environment: three fixed
plaintexts decode to a group-leave notice, a text message, and a group
setup; everything else fails to parse. -/
def innerOf : String → Option Inner := fun s =>
  if s = "LEAVE" then
    some { senderId := some "bob", type := some "GROUP_LEAVE",
           groupId := some "team" }
  else if s = "TEXT" then
    some { text := some "hi", senderId := some "alice", createdAt := some 5 }
  else if s = "SETUP" then
    some { type := some "GROUP_SETUP", groupId := some "team",
           groupInboxId := some "GIA", creator := some "alice",
           chainKey := some "CKA", signingPubKey := some "PKA" }
  else none

/-- A fully concrete, executable environment for closed scenario
theorems: signatures `SIGalice`/`SIGbob` recover the matching addresses,
anything else recovers a forged address; the AEAD decrypts exactly the
ciphertext `CT1`. -/
def E0 : Env where
  hmac := fun k m => "H:" ++ k ++ ":" ++ m
  sha256hex := fun s => "#" ++ s
  jsLower := fun s => s
  aeadEnc := fun k _ _ => ("CT<" ++ k ++ ">", "TAG")
  aeadDec := fun _ _ _ ct => if ct = "CT1" then some "TEXT" else none
  cipherParse := fun s => if s = "badmsg" then none else some s
  decryptPriv := fun _ s => some s
  parseInner := innerOf
  recoverAddr := fun _ sig =>
    if sig = "SIGalice" then some "ADDRalice"
    else if sig = "SIGbob" then some "ADDRbob"
    else some "ADDRforged"
  pubToAddress := fun p =>
    if p = "PUBalice" then "ADDRalice"
    else if p = "PUBbob" then "ADDRbob"
    else "ADDRother"
  directoryPub := dirPubs
  keccak := fun s => "K<" ++ s ++ ">"
  signKeccak := fun k _ => "SIG<" ++ k ++ ">"
  pubFromPriv := fun k => "PUB<" ++ k ++ ">"
  serialize := fun _ => "JSON"

/-- A stored group as a remaining member sees it: `alice` is the creator,
`bob` and `carol` have tracked chain and signing keys. -/
def teamState : GroupState :=
  { name := some "team", groupInboxId := some "GIBX", creator := some "alice",
    myChainKey := some "CKME", mySigningKey := some "SKME",
    members := some ["alice", "bob", "carol"],
    memberKeys := some [("bob", some "CKB"), ("carol", some "CKC")],
    signingKeys := some [("bob", some "PKB"), ("carol", some "PKC")] }

/-- The scenario store holding only the `team` group. -/
def store0 : Store := [("team", teamState)]

/-- `teamState` after the GROUP_LEAVE handler ran for leaver `bob`:
only the chain key changed. -/
def teamAfterLeave : GroupState := { teamState with myChainKey := some "FRESH" }

/-- A sealed GROUP_LEAVE notice for `bob` whose signature recovers a
forged address (any address other than bob's). -/
def leaveForged : WireRecord :=
  { message := some "LEAVE", signature := some "SIGforged" }

/-- The same GROUP_LEAVE notice with a signature that genuinely recovers
bob's address. -/
def leaveGenuine : WireRecord :=
  { message := some "LEAVE", signature := some "SIGbob" }

/-- A well-formed 1:1 text message from alice with a valid signature. -/
def goodDirect : WireRecord :=
  { message := some "TEXT", signature := some "SIGalice" }

/-- A malformed 1:1 record: `EthCrypto.cipher.parse` throws on it. -/
def badDirect : WireRecord :=
  { message := some "badmsg", signature := some "SIGalice" }

/-- A well-formed group wire record from `bob` that decrypts. -/
def goodGroupMsg : WireRecord :=
  { message := some "IV:TAG2:CT1", senderId := some "bob" }

/-- A malformed group wire record (missing the authTag segment). -/
def badGroupMsg : WireRecord :=
  { message := some "nocolons", senderId := some "bob" }

/-- Deterministic stand-in for `randomBytes(32)`. -/
def rnd : Nat → String := fun _ => "FRESH"

/-- ASCII lower-casing, the relevant behaviour of JS `toLowerCase` on
usernames. -/
def asciiLower (s : String) : String := String.mk (s.data.map Char.toLower)

/-- Environment for the blinding witness: an injective digest and real
lower-casing. -/
def E9 : Env := { E0 with jsLower := asciiLower, sha256hex := fun s => s }

/-- A sealed `GROUP_SETUP` record (no `senderId` in its plaintext). -/
def setupMsg : WireRecord :=
  { message := some "SETUP", signature := some "SIGany" }

/-- Store for the group-send trace of the sender-identity analysis:
`bob` created a local group `team` listing himself first (the documented
convention), then received a `GROUP_SETUP` for the same group name
announcing `alice` as creator; `saveGroup`'s shallow merge keeps bob's
chain and signing keys while overwriting `creator`. -/
def c8Store : Store :=
  (getMessages E0
    (createGroup E0 [] "team" ["bob", "x"] "KEYB" "CKB0" "SKBpriv" "PKBpub").1
    "bob" "KEYB" (fun _ => [setupMsg]) rnd).1

/-- The `iv:authTag:ciphertext` blob `group-send` builds from chain key
`ck` (after one ratchet step) for the given payload fields. -/
def sendBlob (E : Env) (ck message iv : String) (creator : Option String)
    (now : Nat) : String :=
  let enc := E.aeadEnc (nextKey E ck).1 iv
    (E.serialize (Payload.textMsg message creator now))
  iv ++ ":" ++ enc.2 ++ ":" ++ enc.1

/-- Left cancellation for string concatenation, used for the blinded
group-inbox derivation. -/
theorem string_append_cancel_left {s t u : String} (h : s ++ t = s ++ u) :
    t = u := by
  cases s with
  | mk a =>
    cases t with
    | mk b =>
      cases u with
      | mk c =>
        have h2 : a ++ b = a ++ c := congrArg String.data h
        exact congrArg String.mk (List.append_cancel_left h2)

/-- The group (symmetric) receive branch produces at most a display
effect and in particular never a store write. -/
theorem groupStep_isSave (E : Env) (g : GroupState) (m : WireRecord)
    (e : Effect) (h : groupStep E g m = some e) : isSave e = false := by
  unfold groupStep at h
  rcases Option.map_eq_some'.mp h with ⟨p, _, rfl⟩
  rfl

/-- No iteration of the group message loop writes the store. -/
theorem groupLoop_no_save (E : Env) (g : GroupState) :
    ∀ msgs : List WireRecord, ∀ e ∈ groupLoop E g msgs, isSave e = false := by
  intro msgs
  induction msgs with
  | nil => simp [groupLoop]
  | cons m rest ih =>
    intro e he
    simp only [groupLoop] at he
    cases hstep : groupStep E g m with
    | none => rw [hstep] at he; exact ih e he
    | some e0 =>
      rw [hstep] at he
      rcases List.mem_cons.mp he with h1 | h1
      · subst h1; exact groupStep_isSave E g m e hstep
      · exact ih e h1

/-- The group message loop treats each record independently: processing
a batch is processing its parts. -/
theorem groupLoop_append (E : Env) (g : GroupState) (ms1 ms2 : List WireRecord) :
    groupLoop E g (ms1 ++ ms2) = groupLoop E g ms1 ++ groupLoop E g ms2 := by
  induction ms1 with
  | nil => simp [groupLoop]
  | cons m rest ih =>
    cases hstep : groupStep E g m with
    | none => simp [groupLoop, hstep, ih]
    | some e0 => simp [groupLoop, hstep, ih]

/-- `redistGo` with a loaded group and a fully resolvable member list
seals one key-update notice per member other than the stored creator. -/
theorem redistGo_resolved (E : Env) (g : GroupState) (gid : String)
    (pub : String → String) :
    ∀ ms : List String, (∀ m ∈ ms, E.directoryPub m = some (pub m)) →
    redistGo E (some g) gid ms =
      ((ms.filter fun m => decide (some m ≠ g.creator)).map
        fun m => Effect.sealedSend (hashUsername E m) (pub m)
          (Payload.keyUpdate gid g.myChainKey g.mySigningPubKey), true) := by
  intro ms
  induction ms with
  | nil => intro _; simp [redistGo]
  | cons m rest ih =>
    intro h
    have hm := h m (by simp)
    have hrest : ∀ x ∈ rest, E.directoryPub x = some (pub x) :=
      fun x hx => h x (by simp [hx])
    by_cases hc : some m = g.creator
    · simp [redistGo, hc, ih hrest]
    · simp [redistGo, hc, hm, ih hrest]

/-- The invitee loop of `create-group` stops at the first unresolvable
member, reporting failure with only the earlier sends performed. -/
theorem createGo_fails (E : Env) (gname inbox : String) (creator : Option String)
    (f spub bad : String) (ms2 : List String) (pub : String → String) :
    ∀ ms1 : List String, (∀ m ∈ ms1, E.directoryPub m = some (pub m)) →
    E.directoryPub bad = none →
    createGo E gname inbox creator f spub (ms1 ++ bad :: ms2) =
      (ms1.map fun m => Effect.sealedSend (hashUsername E m) (pub m)
        (Payload.groupSetup gname inbox creator f spub), false) := by
  intro ms1
  induction ms1 with
  | nil => intro _ hbad; simp [createGo, hbad]
  | cons m rest ih =>
    intro h hbad
    have hm := h m (by simp)
    simp [createGo, hm, ih (fun x hx => h x (by simp [hx])) hbad]

/-- C1.  The claim says a processed GroupLeave removes the leaver from
`members`, `memberKeys` and `signingKeys` before the rotated state is
persisted.  The code destructures `senderId` out of the decrypted JSON,
so `data.senderId` is `undefined`: filtering and deleting against it
removes nothing.  At the concrete failing input (leaver `bob` of group
`team`) the persisted state still holds `bob` in all three places; only
`myChainKey` was replaced by the fresh random value. -/
theorem c1_group_leave_does_not_remove_leaver :
    loadGroup (getMessages E0 store0 "me" "KEY" (fun _ => [leaveForged]) rnd).1
        "team" = some teamAfterLeave ∧
    "bob" ∈ teamAfterLeave.members.getD [] ∧
    lookupKey (teamAfterLeave.memberKeys.getD []) "bob" = some (some "CKB") ∧
    lookupKey (teamAfterLeave.signingKeys.getD []) "bob" = some (some "PKB") ∧
    teamAfterLeave.myChainKey = some "FRESH" := by decide

/-- C2.  The claim says a GroupLeave is acted on only after the notice's
signature verifies against the expected sender's key, and mismatching
messages are discarded.  In the code the GROUP_LEAVE branch is the
`else` of the address-match test: the same notice mutates the store when
its signature recovers a forged address, and is ignored (no effect at
all) when the signature genuinely recovers bob's address. -/
theorem c2_group_leave_acted_on_exactly_when_signature_mismatches :
    (getMessages E0 store0 "me" "KEY" (fun _ => [leaveForged]) rnd).1 ≠ store0 ∧
    (getMessages E0 store0 "me" "KEY" (fun _ => [leaveForged]) rnd).2.1 ≠ [] ∧
    getMessages E0 store0 "me" "KEY" (fun _ => [leaveGenuine]) rnd =
      (store0, [], Outcome.ok) := by decide

/-- C3.  The claim says every successfully decrypted group message makes
the receiver advance the sender's chain-key track and persist it
immediately.  The group receive branch of `get-messages` never writes the
store at all: the returned store equals the input store and no save
effect occurs, for every environment and every fetched batch. -/
theorem c3_group_receive_never_advances_or_persists (E : Env) (store : Store)
    (name key : String) (fetchInbox : String → List WireRecord)
    (rand : Nat → String) (g : GroupState)
    (hg : loadGroup store name = some g) :
    (getMessages E store name key fetchInbox rand).1 = store ∧
    ∀ e ∈ (getMessages E store name key fetchInbox rand).2.1,
      isSave e = false := by
  constructor
  · simp [getMessages, hg]
  · intro e he
    simp only [getMessages, hg] at he
    exact groupLoop_no_save E g _ e he

/-- Witness for C3: the concrete group `team` with a message from `bob`
that decrypts successfully; the store is untouched and no save occurs. -/
theorem c3_group_receive_never_advances_or_persists_witness :
    loadGroup store0 "team" = some teamState ∧
    ((getMessages E0 store0 "team" "KEY" (fun _ => [goodGroupMsg]) rnd).1 =
        store0 ∧
      ∀ e ∈ (getMessages E0 store0 "team" "KEY" (fun _ => [goodGroupMsg])
          rnd).2.1, isSave e = false) :=
  ⟨by decide,
   c3_group_receive_never_advances_or_persists E0 store0 "team" "KEY"
     (fun _ => [goodGroupMsg]) rnd teamState (by decide)⟩

/-- C4.  The claim says the advanced chain key is persisted before the
message is transmitted and a failed persist makes the send fail without
transmitting.  Concretely, with the persist failing (`saveOk = false`)
the command still posts the encrypted blob and reports success, and the
store keeps the old chain key — so a retry would reuse the same message
key. -/
theorem c4_send_proceeds_despite_failed_persist :
    groupSend E0 store0 "team" "hi" "IV" 7 false =
      (store0,
       [Effect.save "team"
          { teamState with myChainKey := some "H:CKME:next_chain" },
        Effect.groupPost "GIBX" "IV:TAG:CT<H:CKME:msg_key>" "SIG<SKME>"
          (some "alice")],
       true) := by decide

/-- C4 amended: on every successful `group-send` the save attempt of the
advanced chain key precedes the post in program order, the posted record
carries the blob derived from the old chain key, and the post happens
whether or not the persist succeeded (only the store differs). -/
theorem c4_amended_save_attempt_precedes_post (E : Env) (store : Store)
    (gname msg iv : String) (now : Nat) (saveOk : Bool) (g : GroupState)
    (ck sk : String) (hg : loadGroup store gname = some g)
    (hck : g.myChainKey = some ck) (hsk : g.mySigningKey = some sk) :
    groupSend E store gname msg iv now saveOk =
      ((if saveOk then
          setStore store gname { g with myChainKey := some (nextKey E ck).2 }
        else store),
       [Effect.save gname { g with myChainKey := some (nextKey E ck).2 },
        Effect.groupPost (jsField g.groupInboxId)
          (sendBlob E ck msg iv g.creator now)
          (E.signKeccak sk (E.keccak (sendBlob E ck msg iv g.creator now)))
          g.creator],
       true) := by
  simp [groupSend, sendBlob, hg, hck, hsk]

/-- Witness for the amended C4 at a concrete successful persist. -/
theorem c4_amended_save_attempt_precedes_post_witness :
    loadGroup store0 "team" = some teamState ∧
    groupSend E0 store0 "team" "hi" "IV" 7 true =
      ((if true then
          setStore store0 "team"
            { teamState with myChainKey := some (nextKey E0 "CKME").2 }
        else store0),
       [Effect.save "team"
          { teamState with myChainKey := some (nextKey E0 "CKME").2 },
        Effect.groupPost (jsField teamState.groupInboxId)
          (sendBlob E0 "CKME" "hi" "IV" teamState.creator 7)
          (E0.signKeccak "SKME"
            (E0.keccak (sendBlob E0 "CKME" "hi" "IV" teamState.creator 7)))
          teamState.creator],
       true) :=
  ⟨by decide,
   c4_amended_save_attempt_precedes_post E0 store0 "team" "hi" "IV" 7 true
     teamState "CKME" "SKME" (by decide) (by decide) (by decide)⟩

/-- C5.  The claim says per-message failures skip only that message on
both paths.  On the 1:1 path a malformed envelope throws out of the
loop: with the malformed record first, the following well-formed message
is never processed (no display, error outcome), although alone it is
displayed fine. -/
theorem c5_direct_path_aborts_batch :
    getMessages E0 store0 "me" "KEY" (fun _ => [badDirect, goodDirect]) rnd =
      (store0, [], Outcome.error) ∧
    getMessages E0 store0 "me" "KEY" (fun _ => [goodDirect]) rnd =
      (store0, [Effect.display (some "alice") (some "hi")], Outcome.ok) := by
  decide

/-- C5 amended: the group path is skip-and-continue (batches process
part-wise and group mode always completes with outcome ok), while on the
1:1 path any message whose step throws ends the whole batch with an
error, discarding the remaining records. -/
theorem c5_amended_skip_policy (E : Env) (key : String) (rand : Nat → String) :
    (∀ (g : GroupState) (ms1 ms2 : List WireRecord),
      groupLoop E g (ms1 ++ ms2) = groupLoop E g ms1 ++ groupLoop E g ms2) ∧
    (∀ (store : Store) (name : String) (fetchInbox : String → List WireRecord)
      (g : GroupState), loadGroup store name = some g →
      (getMessages E store name key fetchInbox rand).2.2 = Outcome.ok) ∧
    (∀ (store : Store) (n : Nat) (msg : WireRecord) (rest : List WireRecord)
      (es : List Effect) (st1 : Store),
      directStep E key rand store n msg = StepRes.err es st1 →
      directLoop E key rand store n (msg :: rest) =
        (st1, es, Outcome.error)) := by
  refine ⟨fun g ms1 ms2 => groupLoop_append E g ms1 ms2, ?_, ?_⟩
  · intro store name fetchInbox g hg
    simp [getMessages, hg]
  · intro store n msg rest es st1 hstep
    simp [directLoop, hstep]

/-- Witness for the amended C5: a malformed group record before a good
one skips only itself, while the malformed 1:1 record aborts. -/
theorem c5_amended_skip_policy_witness :
    groupLoop E0 teamState ([badGroupMsg] ++ [goodGroupMsg]) =
      groupLoop E0 teamState [badGroupMsg] ++
        groupLoop E0 teamState [goodGroupMsg] ∧
    (getMessages E0 store0 "team" "KEY"
      (fun _ => [badGroupMsg, goodGroupMsg]) rnd).2.2 = Outcome.ok ∧
    directLoop E0 "KEY" rnd store0 0 [badDirect, goodDirect] =
      (store0, [], Outcome.error) :=
  ⟨(c5_amended_skip_policy E0 "KEY" rnd).1 teamState [badGroupMsg]
     [goodGroupMsg],
   (c5_amended_skip_policy E0 "KEY" rnd).2.1 store0 "team"
     (fun _ => [badGroupMsg, goodGroupMsg]) teamState (by decide),
   (c5_amended_skip_policy E0 "KEY" rnd).2.2 store0 0 badDirect [goodDirect]
     [] store0 (by decide)⟩

/-- C6.  The claim says a failed distribution to one invitee still
persists the group with the reached members and reports a failure list.
Concretely, with the second of three invitees unresolvable, create-group
contacts only the first invitee, persists nothing (the store stays
empty, no save effect), never contacts the third, and reports plain
failure. -/
theorem c6_create_partial_failure_aborts_whole_operation :
    createGroup E0 [] "team" ["alice", "badguy", "carol"] "KEY" "F" "SP"
        "SPUB" =
      ([],
       [Effect.sealedSend "#alice" "PUBalice"
          (Payload.groupSetup "team" "#team:PUB<KEY>" (some "alice") "F"
            "SPUB")],
       false) := by decide

/-- C6 amended: whenever one invitee fails to resolve, the whole
create-group operation aborts: exactly the invitees before the failing
one are contacted, the store is unchanged (no group state persisted),
and a single failure is reported. -/
theorem c6_amended_create_aborts_on_invitee_failure (E : Env) (store : Store)
    (gname : String) (ms1 : List String) (bad : String) (ms2 : List String)
    (key f sp spub : String) (pub : String → String)
    (h1 : ∀ m ∈ ms1, E.directoryPub m = some (pub m))
    (h2 : E.directoryPub bad = none) :
    createGroup E store gname (ms1 ++ bad :: ms2) key f sp spub =
      (store,
       ms1.map fun m => Effect.sealedSend (hashUsername E m) (pub m)
         (Payload.groupSetup gname (hashGroupId E gname (E.pubFromPriv key))
           ((ms1 ++ bad :: ms2).head?) f spub),
       false) := by
  simp only [createGroup]
  rw [createGo_fails E gname (hashGroupId E gname (E.pubFromPriv key))
    ((ms1 ++ bad :: ms2).head?) f spub bad ms2 pub ms1 h1 h2]
  simp

/-- Witness for the amended C6 at the concrete three-invitee run. -/
theorem c6_amended_create_aborts_on_invitee_failure_witness :
    E0.directoryPub "badguy" = none ∧
    createGroup E0 [] "team" ["alice", "badguy", "x"] "KEY" "F" "SP" "SPUB" =
      ([],
       ["alice"].map (fun m => Effect.sealedSend (hashUsername E0 m)
         ("PUB" ++ m)
         (Payload.groupSetup "team"
           (hashGroupId E0 "team" (E0.pubFromPriv "KEY"))
           ((["alice"] ++ "badguy" :: ["x"]).head?) "F" "SPUB")),
       false) :=
  ⟨by decide,
   c6_amended_create_aborts_on_invitee_failure E0 [] "team" ["alice"]
     "badguy" ["x"] "KEY" "F" "SP" "SPUB" (fun m => "PUB" ++ m)
     (by decide) (by decide)⟩

/-- C7.  The claim says the rotation distributes
`GroupKeyUpdate{groupId, chainKey, signingPubKey}` to every remaining
member except self and to no one else.  In the concrete leave trace the
notices carry no signing public key (the code reads `mySigningPubKey`,
a field no save path ever writes) and one is sealed to `bob` — the very
member who left (the exclusion is by stored creator, and the leaver was
never removed). -/
theorem c7_key_update_reaches_leaver_and_lacks_signing_key :
    (getMessages E0 store0 "me" "KEY" (fun _ => [leaveForged]) rnd).2.1 =
      [Effect.save "team" teamAfterLeave,
       Effect.sealedSend "#bob" "PUBbob"
         (Payload.keyUpdate "team" (some "FRESH") none),
       Effect.sealedSend "#carol" "PUBcarol"
         (Payload.keyUpdate "team" (some "FRESH") none)] := by decide

/-- C7 amended: for a loaded group and resolvable members, the
redistribution seals a `GROUP_KEY_UPDATE` carrying the stored
`myChainKey` and the stored `mySigningPubKey` field (which no code path
ever sets) to exactly the passed members other than the stored
creator. -/
theorem c7_amended_redistribution_targets_and_payload (E : Env)
    (store : Store) (gid : String) (ms : List String) (g : GroupState)
    (pub : String → String) (hg : loadGroup store gid = some g)
    (hpub : ∀ m ∈ ms, E.directoryPub m = some (pub m)) :
    redistributeKeys E store gid (some ms) =
      ((ms.filter fun m => decide (some m ≠ g.creator)).map
        fun m => Effect.sealedSend (hashUsername E m) (pub m)
          (Payload.keyUpdate gid g.myChainKey g.mySigningPubKey), true) := by
  simp [redistributeKeys, hg, redistGo_resolved E g gid pub ms hpub]

/-- Witness for the amended C7 on the stored `team` group. -/
theorem c7_amended_redistribution_targets_and_payload_witness :
    loadGroup store0 "team" = some teamState ∧
    redistributeKeys E0 store0 "team" (some ["alice", "bob", "carol"]) =
      (((["alice", "bob", "carol"].filter
          fun m => decide (some m ≠ teamState.creator)).map
        fun m => Effect.sealedSend (hashUsername E0 m) ("PUB" ++ m)
          (Payload.keyUpdate "team" teamState.myChainKey
            teamState.mySigningPubKey)), true) :=
  ⟨by decide,
   c7_amended_redistribution_targets_and_payload E0 store0 "team"
     ["alice", "bob", "carol"] teamState (fun m => "PUB" ++ m) (by decide)
     (by decide)⟩

/-- C8.  The claim says the posted `senderId` is the identity of the
member who invoked the send.  `group-send` takes no identity input and
posts the stored `creator` field unconditionally: in the reachable trace
where `bob` created his local `team` (listing himself first) and then a
`GROUP_SETUP` for the same name overwrote `creator` with `alice`, bob's
send is tagged `senderId: "alice"`. -/
theorem c8_sender_id_is_stored_creator_not_invoker :
    postedSenderIds (groupSend E0 c8Store "team" "hi" "IV" 9 true).2.1 =
      [some "alice"] ∧ "alice" ≠ "bob" := by decide

/-- C8 amended: every successful group send posts exactly one record,
whose `senderId` side-channel field is the loaded group state's stored
`creator`. -/
theorem c8_amended_sender_id_is_stored_creator (E : Env) (store : Store)
    (gname msg iv : String) (now : Nat) (saveOk : Bool) (g : GroupState)
    (ck sk : String) (hg : loadGroup store gname = some g)
    (hck : g.myChainKey = some ck) (hsk : g.mySigningKey = some sk) :
    postedSenderIds (groupSend E store gname msg iv now saveOk).2.1 =
      [g.creator] := by
  simp [groupSend, hg, hck, hsk, postedSenderIds]

/-- Witness for the amended C8 on the stored `team` group. -/
theorem c8_amended_sender_id_is_stored_creator_witness :
    loadGroup store0 "team" = some teamState ∧
    postedSenderIds (groupSend E0 store0 "team" "hi" "IV" 9 true).2.1 =
      [teamState.creator] :=
  ⟨by decide,
   c8_amended_sender_id_is_stored_creator E0 store0 "team" "hi" "IV" 9 true
     teamState "CKME" "SKME" (by decide) (by decide) (by decide)⟩

/-- C9.  Blinding is a pure function of the lower-cased name (names with
equal lower-casings blind identically), and under the digest's
collision-resistance idealisation (injectivity) the group inbox id
separates creators: the same group name under two different creator
public keys yields two different inbox ids, because the digest input
`lower(groupName) ++ ":" ++ creatorPubKey` is injective in the key. -/
theorem c9_blinding_deterministic_and_creator_separated (E : Env)
    (hinj : Function.Injective E.sha256hex) (n1 n2 g k1 k2 : String)
    (hcase : E.jsLower n1 = E.jsLower n2) (hk : k1 ≠ k2) :
    hashUsername E n1 = hashUsername E n2 ∧
    hashUsername E n1 = E.sha256hex (E.jsLower n1) ∧
    hashGroupId E g k1 ≠ hashGroupId E g k2 := by
  refine ⟨by simp [hashUsername, hcase], rfl, ?_⟩
  intro h
  exact hk (string_append_cancel_left (hinj h))

/-- Witness for C9: an injective digest, case-variant names, distinct
creator keys. -/
theorem c9_blinding_deterministic_and_creator_separated_witness :
    asciiLower "Alice" = asciiLower "ALICE" ∧ ("K1" : String) ≠ "K2" ∧
    (hashUsername E9 "Alice" = hashUsername E9 "ALICE" ∧
      hashUsername E9 "Alice" = E9.sha256hex (E9.jsLower "Alice") ∧
      hashGroupId E9 "Team" "K1" ≠ hashGroupId E9 "Team" "K2") :=
  ⟨by decide, by decide,
   c9_blinding_deterministic_and_creator_separated E9 (fun _ _ h => h)
     "Alice" "ALICE" "Team" "K1" "K2" (by decide) (by decide)⟩

/-- C10.  `get-messages` treats its name as a group exactly when a local
group entry exists: then it fetches from the stored `groupInboxId` and
runs only the symmetric group loop; otherwise it fetches from the
blinded personal inbox `sha256(lowercase(name))` and runs only the 1:1
envelope loop.  A stored group whose name equals a username therefore
shadows that personal inbox for this command. -/
theorem c10_dispatch_group_shadows_username (E : Env) (store : Store)
    (name key : String) (fetchInbox : String → List WireRecord)
    (rand : Nat → String) :
    (∀ g : GroupState, loadGroup store name = some g →
      getMessagesInbox E store name = jsField g.groupInboxId ∧
      getMessages E store name key fetchInbox rand =
        (store, groupLoop E g (fetchInbox (jsField g.groupInboxId)),
         Outcome.ok)) ∧
    (loadGroup store name = none →
      getMessagesInbox E store name = E.sha256hex (E.jsLower name) ∧
      getMessages E store name key fetchInbox rand =
        directLoop E key rand store 0
          (fetchInbox (E.sha256hex (E.jsLower name)))) := by
  constructor
  · intro g hg
    constructor
    · simp [getMessagesInbox, hg]
    · simp [getMessages, getMessagesInbox, hg]
  · intro hg
    constructor
    · simp [getMessagesInbox, hashUsername, hg]
    · simp [getMessages, getMessagesInbox, hashUsername, hg]

/-- Witness for C10: the stored group `team` shadows any user named
`team`; the unknown name `me` falls back to the blinded personal
inbox. -/
theorem c10_dispatch_group_shadows_username_witness :
    (getMessagesInbox E0 store0 "team" = jsField teamState.groupInboxId ∧
      getMessages E0 store0 "team" "KEY" (fun _ => [goodGroupMsg]) rnd =
        (store0,
         groupLoop E0 teamState
           ((fun _ => [goodGroupMsg]) (jsField teamState.groupInboxId)),
         Outcome.ok)) ∧
    (getMessagesInbox E0 store0 "me" = E0.sha256hex (E0.jsLower "me") ∧
      getMessages E0 store0 "me" "KEY" (fun _ => [goodDirect]) rnd =
        directLoop E0 "KEY" rnd store0 0
          ((fun _ => [goodDirect]) (E0.sha256hex (E0.jsLower "me")))) :=
  ⟨(c10_dispatch_group_shadows_username E0 store0 "team" "KEY"
      (fun _ => [goodGroupMsg]) rnd).1 teamState (by decide),
   (c10_dispatch_group_shadows_username E0 store0 "me" "KEY"
      (fun _ => [goodDirect]) rnd).2 (by decide)⟩

end OpenIndex
